import Mathlib

/-!
Verification development for `singlepy` (`templates/database.py` and
`templates/unicode2ascii.py`): a shallow embedding of the ingestion and
type-inference pipeline, the relation-building and query pass-through
layer, and the two transliteration implementations, together with
theorems settling the specification's testable properties against it.

The embedding starts from the point where the standard `csv` module has
produced a header and the list of raw records (dialect sniffing and CSV
lexing belong to the Python standard library, not to this repository).
-/

namespace SinglePy

/-- SQL datatypes that the inference step of `Database._read_tabular`
can assign to a column. -/
inductive Datatype
  | INTEGER
  | REAL
  | TEXT
deriving DecidableEq, Repr

/-- Cell values after the per-row conversion pass of
`Database._read_tabular`: Python `int`, Python `float`, or the raw
string.  Python floats are carried as rationals here; no property below
depends on binary floating-point rounding, only on which strings
convert at all. -/
inductive Value
  | vInt (i : Int)
  | vReal (q : Rat)
  | vStr (s : String)
deriving DecidableEq, Repr

/-- A row as produced by `csv.DictReader`: a Python dict from column
name to raw string, modelled as an association list in insertion
order. -/
abbrev RawRow := List (String × String)

/-- A row after the conversion pass of `_read_tabular`. -/
abbrev TypedRow := List (String × Value)

/-- Python dict lookup `d[k]` (first matching key; dicts built below
never hold duplicate keys). -/
def dlookup {α : Type} (k : String) : List (String × α) → Option α
  | [] => none
  | (k₀, v₀) :: rest => if k₀ = k then some v₀ else dlookup k rest

/-- Python dict assignment `d[k] = v`: replace the value at an existing
key in place, otherwise append the new binding at the end. -/
def dictInsert {α : Type} (k : String) (v : α) : List (String × α) → List (String × α)
  | [] => [(k, v)]
  | (k₀, v₀) :: rest =>
      if k₀ = k then (k₀, v) :: rest else (k₀, v₀) :: dictInsert k v rest

/-- The keys of an association-list dict, in order. -/
def rowKeys {α : Type} (r : List (String × α)) : List String := r.map Prod.fst

/-- The row dict `csv.DictReader` builds from the header and one
record: successive assignments `d[header i] = record i`, so a column
name repeated in the header collapses to a single key holding the last
occurrence's value. -/
def dictRow (header record : List String) : RawRow :=
  (header.zip record).foldl (fun d kv => dictInsert kv.1 kv.2 d) []

/-- The list `values[key]` that `_read_tabular` accumulates: the raw
values of column `k` across all rows, in row order (rows lacking the
key contribute nothing). -/
def colVals (data : List RawRow) (k : String) : List String :=
  data.filterMap (fun r => dlookup k r)

/-- The state of the local variable `values` inside the inference loop
of `_read_tabular` (lines 200-213).  It starts as the dict of per-key
raw value lists; the first successful whole-column conversion reassigns
it to a plain list, after which indexing it with a string key raises
`TypeError` and both conversion attempts of every later key silently
fail via the bare `except`. -/
inductive ValsState
  | dict
  | clob
deriving DecidableEq, Repr

/-- One iteration of the inference loop of `_read_tabular` for key `k`:
try `values = [int(v) for v in values[key]]`, then
`values = [float(v) for v in values[key]]`, each under `try/except:
pass`, updating `key_map` on success.  `io`/`fo` decide whether
Python's `int(s)`/`float(s)` succeed; `cv k` is the raw value list of
column `k`. -/
def inferStep (io fo : String → Bool) (cv : String → List String)
    (st : ValsState × List (String × Datatype)) (k : String) :
    ValsState × List (String × Datatype) :=
  match st with
  | (.clob, km) => (.clob, km)
  | (.dict, km) =>
      if (cv k).all io then (.clob, dictInsert k Datatype.INTEGER km)
      else if (cv k).all fo then (.clob, dictInsert k Datatype.REAL km)
      else (.dict, km)

/-- The `key_map` produced by the inference loop of `_read_tabular`
over the keys of the first row. -/
def inferKeyMap (io fo : String → Bool) (cv : String → List String)
    (keys : List String) : List (String × Datatype) :=
  (keys.foldl (inferStep io fo cv) (ValsState.dict, [])).2

/-- The conversion the per-row pass of `_read_tabular` (lines 218-223)
applies to the cell of column `k`: `int(row[key])` for INTEGER keys,
`float(row[key])` for REAL keys, and no touch at all for keys absent
from `key_map`.  `ic`/`fc` are Python's `int`/`float` on strings;
`none` models the conversion raising. -/
def convertCell (ic : String → Option Int) (fc : String → Option Rat)
    (km : List (String × Datatype)) (k s : String) : Option Value :=
  match dlookup k km with
  | some Datatype.INTEGER => (ic s).map Value.vInt
  | some Datatype.REAL => (fc s).map Value.vReal
  | some Datatype.TEXT => some (Value.vStr s)
  | none => some (Value.vStr s)

/-- The conversion pass over one row; `none` models an uncaught
conversion exception propagating out of `_read_tabular`. -/
def convertRow (ic : String → Option Int) (fc : String → Option Rat)
    (km : List (String × Datatype)) : RawRow → Option TypedRow
  | [] => some []
  | (k, s) :: rest =>
      match convertCell ic fc km k s with
      | none => none
      | some v =>
          match convertRow ic fc km rest with
          | none => none
          | some tr => some ((k, v) :: tr)

/-- The conversion pass over all rows of the file. -/
def convertRows (ic : String → Option Int) (fc : String → Option Rat)
    (km : List (String × Datatype)) : List RawRow → Option (List TypedRow)
  | [] => some []
  | r :: rest =>
      match convertRow ic fc km r with
      | none => none
      | some tr =>
          match convertRows ic fc km rest with
          | none => none
          | some trs => some (tr :: trs)

/-- The exceptions the embedded fragments can raise, plus (modelled
from the spec, sections 4.4, 4.5 and 7) the dedicated error kinds
`DuplicateTableError`, `DuplicateColumnError` and `QueryError` that the
specification names: the source defines no such classes and never
raises them, so no definition below ever produces these three
constructors. -/
inductive PyError
  | attributeError
  | indexError
  | valueError
  | operationalError (msg : String)
  | duplicateTableError (msg : String)
  | duplicateColumnError (msg : String)
  | queryError (msg : String)
deriving DecidableEq, Repr

/-- The list `data` of `_read_tabular`: one row dict per record. -/
def tabData (header : List String) (records : List (List String)) : List RawRow :=
  records.map (dictRow header)

/-- The `key_map` `_read_tabular` computes for a file whose first
record is `rec0`: the inference loop over `keys = data[0].keys()`,
where `int`/`float` success is `(ic s).isSome`/`(fc s).isSome`. -/
def tabKM (ic : String → Option Int) (fc : String → Option Rat)
    (header : List String) (records : List (List String)) (rec0 : List String) :
    List (String × Datatype) :=
  inferKeyMap (fun s => (ic s).isSome) (fun s => (fc s).isSome)
    (colVals (tabData header records)) (rowKeys (dictRow header rec0))

/-- The `datatypes` dict `_read_tabular` returns: every key of
`data[0]`, from `key_map` when present and TEXT otherwise. -/
def tabDts (ic : String → Option Int) (fc : String → Option Rat)
    (header : List String) (records : List (List String)) (rec0 : List String) :
    List (String × Datatype) :=
  (rowKeys (dictRow header rec0)).map
    (fun k => (k, (dlookup k (tabKM ic fc header records rec0)).getD Datatype.TEXT))

/-- `Database._read_tabular` from the point where `csv.DictReader` has
yielded the raw records: build the row dicts, take `keys` from
`data[0]` (raising `IndexError` when there are no data rows), run the
inference loop with its `values` aliasing, run the per-row conversion
pass, and default every key missing from `key_map` to TEXT. -/
def readTabular (ic : String → Option Int) (fc : String → Option Rat)
    (header : List String) :
    List (List String) → Except PyError (List TypedRow × List (String × Datatype))
  | [] => Except.error PyError.indexError
  | rec0 :: rest =>
      match convertRows ic fc (tabKM ic fc header (rec0 :: rest) rec0)
          (tabData header (rec0 :: rest)) with
      | none => Except.error PyError.valueError
      | some rows => Except.ok (rows, tabDts ic fc header (rec0 :: rest) rec0)

/-- One table of the in-memory sqlite store: the schema produced by
`CREATE TABLE` and the rows loaded by `executemany`.  The engine is
external; it is modelled here only as far as `_add_table` exercises it
(sqlite stores the typed values of these rows unchanged: INTEGER and
REAL columns receive ints and floats, TEXT columns receive the
untouched strings). -/
structure Table where
  datatypes : List (String × Datatype)
  rows : List TypedRow
deriving DecidableEq, Repr

/-- The state a `Database` object owns: the tables of the in-memory
sqlite connection, and `self.tables` mapping table name to source file
path (paths are carried as their stem strings). -/
structure Database where
  store : List (String × Table)
  tables : List (String × String)
deriving DecidableEq, Repr

/-- The input file as the `csv` module delivers it to `_read_tabular`:
the file stem (used for the table name) plus header and records. -/
structure FileData where
  stem : String
  header : List String
  records : List (List String)
deriving DecidableEq, Repr

/-- `Database._add_table`: read the file, transliterate the stem, issue
`CREATE TABLE` (the sqlite engine rejects a name that already exists
with `sqlite3.OperationalError: table <name> already exists` — the
source performs no duplicate check of its own, see the TODO at line
122), record the path in `self.tables`, then insert all rows.  `t` is
the transliteration collaborator selected by the import chain. -/
def addTable (t : String → String) (ic : String → Option Int)
    (fc : String → Option Rat) (db : Database) (f : FileData) :
    Except PyError Database :=
  match readTabular ic fc f.header f.records with
  | Except.error e => Except.error e
  | Except.ok (rows, dts) =>
      let tablename := t f.stem
      if db.store.any (fun p => p.1 = tablename) then
        Except.error (PyError.operationalError
          ("table " ++ tablename ++ " already exists"))
      else
        Except.ok
          { store := db.store ++ [(tablename, { datatypes := dts, rows := rows })],
            tables := dictInsert tablename f.stem db.tables }

/-- The `source_path` argument of `Database.__init__`: `None`, a single
file, or a directory with its contained files. -/
inductive Source
  | nothing
  | file (f : FileData)
  | dir (files : List FileData)
deriving Repr

/-- `Database.__init__`: start with empty `self.tables` and a fresh
in-memory store, then test `source_path.is_file()`.  With `None` that
attribute access raises `AttributeError`; with a directory `is_file()`
is false and the body ends without ingesting anything; with a file it
calls `_add_table`. -/
def databaseInit (t : String → String) (ic : String → Option Int)
    (fc : String → Option Rat) : Source → Except PyError Database
  | Source.nothing => Except.error PyError.attributeError
  | Source.dir _ => Except.ok { store := [], tables := [] }
  | Source.file f => addTable t ic fc { store := [], tables := [] } f

/-- The query path of the `__main__` loop
(`db.connection.execute(command)`, line 297): the caller's query string
goes to the external engine verbatim and whatever the engine raises
propagates as the engine's own `sqlite3.OperationalError`, with no
wrapping and nothing attached.  The engine is a parameter mapping the
current store and the query to either an error message or a new store
and result rows. -/
def replQuery
    (engine : List (String × Table) → String →
      Except String (List (String × Table) × List (List Value)))
    (db : Database) (q : String) :
    Except PyError (Database × List (List Value)) :=
  match engine db.store q with
  | Except.error msg => Except.error (PyError.operationalError msg)
  | Except.ok (st, rs) => Except.ok ({ db with store := st }, rs)

/-- The character-class and normalization behavior of Python's `str`
methods and `unicodedata.normalize` that the fallback transliteration
consults; an oracle parameter because these are Python-runtime
capabilities, not repository code. -/
structure PyUnicode where
  isAlpha : Char → Bool
  isDigit : Char → Bool
  isSpace : Char → Bool
  nfkd : String → String

/-- The last-resort `unicode2ascii` defined inside `database.py`
(lines 55-72): NFKD-normalize, then keep exactly the characters that
are alphabetic, digits or whitespace. -/
def unicode2asciiFallback (u : PyUnicode) (s : String) : String :=
  String.mk ((u.nfkd s).data.filter
    (fun c => u.isAlpha c || u.isDigit c || u.isSpace c))

/-- Membership in Python's `string.printable`: the 94 graphic ASCII
characters, space, and the whitespace controls TAB, LF, VT, FF, CR. -/
def inStringPrintable (c : Char) : Bool :=
  (0x21 ≤ c.toNat && c.toNat ≤ 0x7e) || c = ' ' || c = '\t' || c = '\n' ||
    c.toNat = 0xb || c.toNat = 0xc || c = '\r'

/-- Python's `str.strip()` with no argument: drop leading and trailing
whitespace, where `issp` decides Python's notion of whitespace. -/
def pyStrip (issp : Char → Bool) (s : String) : String :=
  String.mk (((s.data.dropWhile issp).reverse.dropWhile issp).reverse)

/-- The `unicode2ascii` of `templates/unicode2ascii.py` (lines 20-45),
after the build step has substituted `UNICODE_MAP`: characters in
`string.printable` pass through, every other character is replaced by
its `UNICODE_MAP` entry (or dropped when absent), and the result is
stripped.  `umap` is the substituted replacement map, `issp` the
whitespace class used by `strip`. -/
def unicode2asciiModule (umap : Char → Option String) (issp : Char → Bool)
    (text : String) : String :=
  pyStrip issp (String.mk
    ((text.data.map (fun c =>
      if inStringPrintable c then [c] else ((umap c).getD "").data)).flatten))

/-- A string is pure ASCII when every character's codepoint is at most
0x7F. -/
def allASCII (s : String) : Bool := s.data.all (fun c => c.toNat ≤ 0x7f)

/-- Python's string whitespace as far as `int`/`float`/`strip` need it
on the inputs below: space, TAB, LF, VT, FF, CR. -/
def pyWs (c : Char) : Bool :=
  c = ' ' || c = '\t' || c = '\n' || c = '\r' || c.toNat = 0xb || c.toNat = 0xc

/-- Strip Python whitespace from both ends of a character list. -/
def stripWs (cs : List Char) : List Char :=
  ((cs.dropWhile pyWs).reverse.dropWhile pyWs).reverse

/-- The numeric value of a nonempty run of decimal digit characters;
`none` when the list is empty or holds a non-digit. -/
def decDigits : List Char → Option Nat
  | [] => none
  | cs =>
      if cs.all Char.isDigit then
        some (cs.foldl (fun n c => 10 * n + (c.toNat - 48)) 0)
      else none

/-- Python's `int(s)` on decimal string literals: surrounding
whitespace allowed, an optional sign, then a nonempty digit run
(digit-group underscores and non-ASCII digits do not occur in any
input considered here and are omitted). -/
def pyIntConv (s : String) : Option Int :=
  match stripWs s.data with
  | '-' :: cs => (decDigits cs).map (fun n => -(n : Int))
  | '+' :: cs => (decDigits cs).map (fun n => (n : Int))
  | cs => (decDigits cs).map (fun n => (n : Int))

/-- The unsigned part of a Python `float` literal: digits with an
optional fractional part, at least one digit overall. -/
def pyFloatBody (cs : List Char) : Option Rat :=
  let ip := cs.takeWhile Char.isDigit
  let rest := cs.dropWhile Char.isDigit
  match rest with
  | [] => if ip.isEmpty then none else
      some ((ip.foldl (fun n c => 10 * n + (c.toNat - 48)) 0 : Nat) : Rat)
  | '.' :: fracs =>
      if fracs.all Char.isDigit && !(ip.isEmpty && fracs.isEmpty) then
        some (((ip.foldl (fun n c => 10 * n + (c.toNat - 48)) 0 : Nat) : Rat) +
          ((fracs.foldl (fun n c => 10 * n + (c.toNat - 48)) 0 : Nat) : Rat) /
            (10 : Rat) ^ fracs.length)
      else none
  | _ => none

/-- Python's `float(s)` on plain decimal literals: surrounding
whitespace, optional sign, digits with an optional fractional part
(exponents, `inf` and `nan` do not occur in any input considered here
and are omitted).  The returned rational carries the literal's value;
no property below depends on binary rounding. -/
def pyFloatConv (s : String) : Option Rat :=
  match stripWs s.data with
  | '-' :: cs => (pyFloatBody cs).map (fun q => -q)
  | '+' :: cs => pyFloatBody cs
  | cs => pyFloatBody cs

/-- Stand-in for the transliteration collaborator at the concrete
inputs used below: all three implementations (unidecode, the module,
the fallback) fix plain ASCII-letter stems such as "a" and "b", so the
identity is their behavior there. -/
def translit0 : String → String := fun s => s

/-- Whether an ingestion outcome is the spec's `DuplicateTableError`. -/
def isDuplicateTableError : Except PyError Database → Bool
  | Except.error (PyError.duplicateTableError _) => true
  | _ => false

/-- Whether a query outcome is the spec's `QueryError`. -/
def isQueryError : Except PyError (Database × List (List Value)) → Bool
  | Except.error (PyError.queryError _) => true
  | _ => false

/-- Whether `needle` occurs as a contiguous substring of `hay`. -/
def strContains (needle hay : String) : Bool :=
  (List.range (hay.length + 1)).any
    (fun i => needle.data.isPrefixOf (hay.data.drop i))

/-- Concrete file `a.csv`: header `x`, one integer row. -/
def fileA : FileData := { stem := "a", header := ["x"], records := [["1"]] }

/-- Concrete file `b.csv`: header `y`, one integer row. -/
def fileB : FileData := { stem := "b", header := ["y"], records := [["2"]] }

/-- A database that already holds a table named `a` (the state after
ingesting `fileA`). -/
def dbA : Database :=
  { store := [("a", { datatypes := [("x", Datatype.INTEGER)],
                      rows := [[("x", Value.vInt 1)]] })],
    tables := [("a", "a")] }

/-- A second file whose stem also transliterates to `a`. -/
def fileA2 : FileData := { stem := "a", header := ["z"], records := [["3"]] }

/-- Modelled from the spec (section 4.5's external query engine): the
sqlite engine's behavior on one malformed query — it rejects the text
at parse time with its own short message, which quotes only the
offending token, never the whole query, and it mutates nothing. -/
def engineSyntaxError : List (String × Table) → String →
    Except String (List (String × Table) × List (List Value)) :=
  fun _ _ => Except.error "near \"SELEC\": syntax error"

/-- Models Python's `unicodedata.normalize("NFKD", ...)` and the `str`
character classes at the characters used below: CJK ideographs such as
U+5317 are alphabetic, are not digits or whitespace, and have no NFKD
decomposition (the inputs below contain no decomposable characters, so
normalization is the identity on them). -/
def cjkOracle : PyUnicode :=
  { isAlpha := fun c =>
      c = '北' || ('a' ≤ c && c ≤ 'z') || ('A' ≤ c && c ≤ 'Z'),
    isDigit := fun c => '0' ≤ c && c ≤ '9',
    isSpace := fun c => pyWs c,
    nfkd := fun s => s }

/-- A tiny instance of the substituted `UNICODE_MAP`, as the build
script produces it from unidecode: ASCII replacements for two accented
letters. -/
def umap0 : Char → Option String :=
  fun c => if c = 'á' then some "a" else if c = 'ž' then some "z" else none

/-- Looking a key up after a dict assignment: the assigned key maps to
the new value, every other key is untouched. -/
theorem dlookup_dictInsert {α : Type} (k k' : String) (v : α) (d : List (String × α)) :
    dlookup k' (dictInsert k v d) = if k = k' then some v else dlookup k' d := by
  induction d with
  | nil => simp [dictInsert, dlookup]
  | cons p rest ih =>
      obtain ⟨k₀, v₀⟩ := p
      by_cases h0 : k₀ = k
      · subst h0
        by_cases h1 : k₀ = k'
        · subst h1; simp [dictInsert, dlookup]
        · simp [dictInsert, dlookup, h1]
      · by_cases h1 : k₀ = k'
        · subst h1
          have hne : ¬ k = k₀ := fun h => h0 h.symm
          simp [dictInsert, dlookup, h0, hne]
        · simp [dictInsert, dlookup, h0, h1, ih]

/-- The key list after a dict assignment: unchanged when the key was
present, extended at the end otherwise. -/
theorem rowKeys_dictInsert {α : Type} (k : String) (v : α) (d : List (String × α)) :
    rowKeys (dictInsert k v d) =
      if k ∈ rowKeys d then rowKeys d else rowKeys d ++ [k] := by
  induction d with
  | nil => simp [dictInsert, rowKeys]
  | cons p rest ih =>
      obtain ⟨k₀, v₀⟩ := p
      by_cases h0 : k₀ = k
      · subst h0; simp [dictInsert, rowKeys]
      · have hne : ¬ k = k₀ := fun h => h0 h.symm
        simp only [dictInsert, h0, if_false, rowKeys, List.map_cons, List.mem_cons,
          hne, false_or] at ih ⊢
        rw [ih]
        by_cases hm : k ∈ List.map Prod.fst rest
        · simp [hm]
        · simp [hm]

/-- Membership in the keys after a dict assignment. -/
theorem mem_rowKeys_dictInsert {α : Type} (k k' : String) (v : α) (d : List (String × α)) :
    k' ∈ rowKeys (dictInsert k v d) ↔ k' = k ∨ k' ∈ rowKeys d := by
  rw [rowKeys_dictInsert]
  by_cases hm : k ∈ rowKeys d
  · simp only [hm, if_true]
    constructor
    · exact Or.inr
    · rintro (h | h)
      · subst h; exact hm
      · exact h
  · simp only [hm, if_false, List.mem_append, List.mem_singleton]
    exact Or.comm

/-- A dict assignment keeps the keys duplicate-free. -/
theorem nodup_rowKeys_dictInsert {α : Type} (k : String) (v : α) (d : List (String × α))
    (h : (rowKeys d).Nodup) : (rowKeys (dictInsert k v d)).Nodup := by
  rw [rowKeys_dictInsert]
  by_cases hm : k ∈ rowKeys d
  · simpa [hm] using h
  · simp only [hm, if_false]
    simpa [List.nodup_append] using ⟨h, hm⟩

/-- Keys reachable by folding dict assignments over a pair list. -/
theorem mem_rowKeys_foldl_insert (ps : List (String × String)) :
    ∀ (d : RawRow) (k : String),
      k ∈ rowKeys (ps.foldl (fun d kv => dictInsert kv.1 kv.2 d) d) ↔
        k ∈ ps.map Prod.fst ∨ k ∈ rowKeys d := by
  induction ps with
  | nil => simp
  | cons p ps ih =>
      intro d k
      simp only [List.foldl_cons, List.map_cons, List.mem_cons]
      rw [ih, mem_rowKeys_dictInsert]
      tauto

/-- Folding dict assignments keeps the keys duplicate-free. -/
theorem nodup_rowKeys_foldl_insert (ps : List (String × String)) :
    ∀ d : RawRow, (rowKeys d).Nodup →
      (rowKeys (ps.foldl (fun d kv => dictInsert kv.1 kv.2 d) d)).Nodup := by
  induction ps with
  | nil => exact fun d h => h
  | cons p ps ih =>
      exact fun d h => ih _ (nodup_rowKeys_dictInsert _ _ _ h)

/-- A `csv.DictReader` row never holds a duplicate key. -/
theorem nodup_rowKeys_dictRow (header record : List String) :
    (rowKeys (dictRow header record)).Nodup :=
  nodup_rowKeys_foldl_insert _ _ (by simp [rowKeys])

/-- For a record of the header's length, the row dict's keys are
exactly the header's names. -/
theorem mem_rowKeys_dictRow (header record : List String) (k : String)
    (hlen : record.length = header.length) :
    k ∈ rowKeys (dictRow header record) ↔ k ∈ header := by
  unfold dictRow
  rw [mem_rowKeys_foldl_insert]
  simp only [rowKeys, List.map_nil, List.not_mem_nil, or_false]
  rw [List.map_fst_zip _ _ (le_of_eq hlen.symm)]

/-- In a dict with duplicate-free keys, membership determines the
lookup. -/
theorem dlookup_eq_some_of_mem {α : Type} (r : List (String × α)) (k : String) (v : α)
    (hnd : (rowKeys r).Nodup) (hm : (k, v) ∈ r) : dlookup k r = some v := by
  induction r with
  | nil => cases hm
  | cons p rest ih =>
      obtain ⟨k₀, v₀⟩ := p
      rw [rowKeys, List.map_cons, List.nodup_cons] at hnd
      rcases List.mem_cons.mp hm with h | h
      · rw [Prod.mk.injEq] at h
        obtain ⟨h1, h2⟩ := h
        simp [dlookup, h1.symm, h2.symm]
      · have hk : ¬ k₀ = k := by
          intro he; subst he
          exact hnd.1 (List.mem_map.mpr ⟨(k₀, v), h, rfl⟩)
        simp only [dlookup, hk, if_false]
        exact ih hnd.2 h

/-- A successful lookup exhibits a member of the dict. -/
theorem mem_of_dlookup_eq_some {α : Type} (r : List (String × α)) (k : String) (v : α)
    (h : dlookup k r = some v) : (k, v) ∈ r := by
  induction r with
  | nil => cases h
  | cons p rest ih =>
      obtain ⟨k₀, v₀⟩ := p
      by_cases h0 : k₀ = k
      · subst h0
        simp only [dlookup, if_true] at h
        cases h
        exact List.mem_cons_self _ _
      · simp only [dlookup, h0, if_false] at h
        exact List.mem_cons_of_mem _ (ih h)

/-- A lookup succeeds exactly on the dict's keys. -/
theorem dlookup_isSome_iff {α : Type} (r : List (String × α)) (k : String) :
    (dlookup k r).isSome = true ↔ k ∈ rowKeys r := by
  induction r with
  | nil => simp [dlookup, rowKeys]
  | cons p rest ih =>
      obtain ⟨k₀, v₀⟩ := p
      by_cases h0 : k₀ = k
      · subst h0; simp [dlookup, rowKeys]
      · have hne : ¬ k = k₀ := fun h => h0 h.symm
        simp [dlookup, rowKeys, h0, hne, ih]

/-- Lookup in a dict built by tabulating a function over a key list. -/
theorem dlookup_tabulate {α : Type} (f : String → α) (keys : List String) (k : String) :
    dlookup k (keys.map (fun x => (x, f x))) =
      if k ∈ keys then some (f k) else none := by
  induction keys with
  | nil => simp [dlookup]
  | cons k₀ rest ih =>
      by_cases h0 : k₀ = k
      · subst h0; simp [dlookup]
      · have hne : ¬ k = k₀ := fun h => h0 h.symm
        simp [dlookup, h0, hne, ih, List.mem_cons]

/-- Unfolding of the inference step while `values` is still the
dict. -/
theorem inferStep_dict (io fo : String → Bool) (cv : String → List String)
    (km : List (String × Datatype)) (k₀ : String) :
    inferStep io fo cv (ValsState.dict, km) k₀ =
      if (cv k₀).all io = true then (ValsState.clob, dictInsert k₀ Datatype.INTEGER km)
      else if (cv k₀).all fo = true then (ValsState.clob, dictInsert k₀ Datatype.REAL km)
      else (ValsState.dict, km) := rfl

/-- Soundness of the inference fold: whenever `key_map` carries
INTEGER (resp. REAL) for a key, every raw value of that column passes
the `int` (resp. `float`) conversion.  This is unaffected by the
`values` clobbering, because a conversion attempt against the
clobbered list always raises and therefore never writes to
`key_map`. -/
theorem inferFold_sound (io fo : String → Bool) (cv : String → List String)
    (keys : List String) :
    ∀ st : ValsState × List (String × Datatype),
      (∀ k, (dlookup k st.2 = some Datatype.INTEGER → (cv k).all io = true) ∧
            (dlookup k st.2 = some Datatype.REAL → (cv k).all fo = true)) →
      ∀ k, (dlookup k (keys.foldl (inferStep io fo cv) st).2 = some Datatype.INTEGER →
              (cv k).all io = true) ∧
           (dlookup k (keys.foldl (inferStep io fo cv) st).2 = some Datatype.REAL →
              (cv k).all fo = true) := by
  induction keys with
  | nil => exact fun st h => h
  | cons k₀ rest ih =>
      intro st h
      rw [List.foldl_cons]
      apply ih
      intro k
      obtain ⟨s, km⟩ := st
      cases s with
      | clob => exact h k
      | dict =>
          by_cases h1 : (cv k₀).all io = true
          · rw [inferStep_dict, if_pos h1]
            constructor
            · intro hx
              rw [dlookup_dictInsert] at hx
              by_cases he : k₀ = k
              · subst he; exact h1
              · rw [if_neg he] at hx; exact (h k).1 hx
            · intro hx
              rw [dlookup_dictInsert] at hx
              by_cases he : k₀ = k
              · rw [if_pos he] at hx; cases hx
              · rw [if_neg he] at hx; exact (h k).2 hx
          · by_cases h2 : (cv k₀).all fo = true
            · rw [inferStep_dict, if_neg h1, if_pos h2]
              constructor
              · intro hx
                rw [dlookup_dictInsert] at hx
                by_cases he : k₀ = k
                · rw [if_pos he] at hx; cases hx
                · rw [if_neg he] at hx; exact (h k).1 hx
              · intro hx
                rw [dlookup_dictInsert] at hx
                by_cases he : k₀ = k
                · subst he; exact h2
                · rw [if_neg he] at hx; exact (h k).2 hx
            · rw [inferStep_dict, if_neg h1, if_neg h2]
              exact h k

/-- Soundness of `key_map` itself. -/
theorem inferKeyMap_sound (io fo : String → Bool) (cv : String → List String)
    (keys : List String) (k : String) :
    (dlookup k (inferKeyMap io fo cv keys) = some Datatype.INTEGER →
      (cv k).all io = true) ∧
    (dlookup k (inferKeyMap io fo cv keys) = some Datatype.REAL →
      (cv k).all fo = true) :=
  inferFold_sound io fo cv keys (ValsState.dict, [])
    (fun _ => ⟨fun hx => (nomatch hx), fun hx => (nomatch hx)⟩) k

/-- A column holding one value that converts neither to `int` nor to
`float` never enters `key_map`: before the clobbering both whole-column
attempts fail on that value, and after the clobbering both attempts
raise `TypeError`. -/
theorem inferFold_not_mem (io fo : String → Bool) (cv : String → List String)
    (k v : String) (hv : v ∈ cv k) (h1 : io v = false) (h2 : fo v = false)
    (keys : List String) :
    ∀ st : ValsState × List (String × Datatype),
      dlookup k st.2 = none →
      dlookup k (keys.foldl (inferStep io fo cv) st).2 = none := by
  have hio : ¬ (cv k).all io = true := fun hall => by
    have := List.all_eq_true.mp hall v hv
    rw [h1] at this; cases this
  have hfo : ¬ (cv k).all fo = true := fun hall => by
    have := List.all_eq_true.mp hall v hv
    rw [h2] at this; cases this
  induction keys with
  | nil => exact fun st h => h
  | cons k₀ rest ih =>
      intro st h
      rw [List.foldl_cons]
      apply ih
      obtain ⟨s, km⟩ := st
      cases s with
      | clob => exact h
      | dict =>
          by_cases he : k₀ = k
          · subst he
            rw [inferStep_dict, if_neg hio, if_neg hfo]
            exact h
          · by_cases b1 : (cv k₀).all io = true
            · rw [inferStep_dict, if_pos b1]
              rw [dlookup_dictInsert, if_neg he]
              exact h
            · by_cases b2 : (cv k₀).all fo = true
              · rw [inferStep_dict, if_neg b1, if_pos b2]
                rw [dlookup_dictInsert, if_neg he]
                exact h
              · rw [inferStep_dict, if_neg b1, if_neg b2]
                exact h

/-- `key_map` has no entry for a column with a value that fails both
conversions. -/
theorem inferKeyMap_not_mem (io fo : String → Bool) (cv : String → List String)
    (keys : List String) (k v : String)
    (hv : v ∈ cv k) (h1 : io v = false) (h2 : fo v = false) :
    dlookup k (inferKeyMap io fo cv keys) = none :=
  inferFold_not_mem io fo cv k v hv h1 h2 keys (ValsState.dict, []) rfl

/-- One cell conversion succeeds whenever `key_map` is sound for its
column and the cell's value is among the column's raw values. -/
theorem convertCell_isSome (ic : String → Option Int) (fc : String → Option Rat)
    (km : List (String × Datatype)) (cv : String → List String) (k s : String)
    (hs : s ∈ cv k)
    (hint : dlookup k km = some Datatype.INTEGER →
      (cv k).all (fun x => (ic x).isSome) = true)
    (hreal : dlookup k km = some Datatype.REAL →
      (cv k).all (fun x => (fc x).isSome) = true) :
    (convertCell ic fc km k s).isSome = true := by
  unfold convertCell
  cases hd : dlookup k km with
  | none => rfl
  | some dt =>
      cases dt with
      | INTEGER =>
          have h := List.all_eq_true.mp (hint hd) s hs
          obtain ⟨i, hi⟩ := Option.isSome_iff_exists.mp h
          rw [hi]; rfl
      | REAL =>
          have h := List.all_eq_true.mp (hreal hd) s hs
          obtain ⟨q, hq⟩ := Option.isSome_iff_exists.mp h
          rw [hq]; rfl
      | TEXT => rfl

/-- A row converts whole whenever each of its cells converts. -/
theorem convertRow_isSome (ic : String → Option Int) (fc : String → Option Rat)
    (km : List (String × Datatype)) (r : RawRow)
    (h : ∀ k s, (k, s) ∈ r → (convertCell ic fc km k s).isSome = true) :
    ∃ tr, convertRow ic fc km r = some tr := by
  induction r with
  | nil => exact ⟨[], rfl⟩
  | cons p rest ih =>
      obtain ⟨k, s⟩ := p
      obtain ⟨v, hv⟩ := Option.isSome_iff_exists.mp (h k s (List.mem_cons_self _ _))
      obtain ⟨tr, htr⟩ := ih (fun k' s' hm => h k' s' (List.mem_cons_of_mem _ hm))
      exact ⟨(k, v) :: tr, by rw [convertRow, hv, htr]⟩

/-- The converted row looks up, at every key, to the conversion of the
raw row's value there. -/
theorem convertRow_dlookup (ic : String → Option Int) (fc : String → Option Rat)
    (km : List (String × Datatype)) (r : RawRow) (tr : TypedRow)
    (h : convertRow ic fc km r = some tr) (k : String) :
    dlookup k tr = (dlookup k r).bind (convertCell ic fc km k) := by
  induction r generalizing tr with
  | nil =>
      rw [convertRow] at h
      cases h
      rfl
  | cons p rest ih =>
      obtain ⟨k₀, s₀⟩ := p
      rw [convertRow] at h
      cases hc : convertCell ic fc km k₀ s₀ with
      | none => rw [hc] at h; cases h
      | some v =>
          rw [hc] at h
          cases hrest : convertRow ic fc km rest with
          | none => rw [hrest] at h; cases h
          | some tr₀ =>
              rw [hrest] at h
              cases h
              by_cases he : k₀ = k
              · subst he
                simp only [dlookup, if_pos rfl, Option.bind]
                exact hc.symm
              · simp only [dlookup, he, if_false]
                exact ih tr₀ hrest

/-- All rows convert whenever each row converts. -/
theorem convertRows_isSome (ic : String → Option Int) (fc : String → Option Rat)
    (km : List (String × Datatype)) (data : List RawRow)
    (h : ∀ r ∈ data, ∃ tr, convertRow ic fc km r = some tr) :
    ∃ rows, convertRows ic fc km data = some rows := by
  induction data with
  | nil => exact ⟨[], rfl⟩
  | cons r rest ih =>
      obtain ⟨tr, htr⟩ := h r (List.mem_cons_self _ _)
      obtain ⟨rows, hrows⟩ := ih (fun r' hm => h r' (List.mem_cons_of_mem _ hm))
      exact ⟨tr :: rows, by rw [convertRows, htr, hrows]⟩

/-- The conversion pass pairs raw rows with typed rows positionally. -/
theorem convertRows_forall2 (ic : String → Option Int) (fc : String → Option Rat)
    (km : List (String × Datatype)) (data : List RawRow) (rows : List TypedRow)
    (h : convertRows ic fc km data = some rows) :
    List.Forall₂ (fun r tr => convertRow ic fc km r = some tr) data rows := by
  induction data generalizing rows with
  | nil =>
      rw [convertRows] at h
      cases h
      exact List.Forall₂.nil
  | cons r rest ih =>
      rw [convertRows] at h
      cases hr : convertRow ic fc km r with
      | none => rw [hr] at h; cases h
      | some tr =>
          rw [hr] at h
          cases hrest : convertRows ic fc km rest with
          | none => rw [hrest] at h; cases h
          | some rows₀ =>
              rw [hrest] at h
              cases h
              exact List.Forall₂.cons hr (ih rows₀ hrest)

/-- Every typed row comes from some raw row of the file. -/
theorem convertRows_mem_right (ic : String → Option Int) (fc : String → Option Rat)
    (km : List (String × Datatype)) (data : List RawRow) (rows : List TypedRow)
    (h : convertRows ic fc km data = some rows) :
    ∀ tr ∈ rows, ∃ r ∈ data, convertRow ic fc km r = some tr := by
  induction data generalizing rows with
  | nil =>
      rw [convertRows] at h
      cases h
      intro tr htr
      cases htr
  | cons r rest ih =>
      rw [convertRows] at h
      cases hr : convertRow ic fc km r with
      | none => rw [hr] at h; cases h
      | some tr₀ =>
          rw [hr] at h
          cases hrest : convertRows ic fc km rest with
          | none => rw [hrest] at h; cases h
          | some rows₀ =>
              rw [hrest] at h
              cases h
              intro tr htr
              rcases List.mem_cons.mp htr with he | hm
              · subst he
                exact ⟨r, List.mem_cons_self _ _, hr⟩
              · obtain ⟨r', hr', hc⟩ := ih rows₀ hrest tr hm
                exact ⟨r', List.mem_cons_of_mem _ hr', hc⟩

/-- Master lemma: with at least one data row, `_read_tabular` returns
normally — the conversion pass cannot raise, because `key_map` only
ever marks a column INTEGER or REAL after the whole column passed that
very conversion. -/
theorem readTabular_ok (ic : String → Option Int) (fc : String → Option Rat)
    (header : List String) (rec0 : List String) (rest : List (List String)) :
    ∃ rows, convertRows ic fc (tabKM ic fc header (rec0 :: rest) rec0)
        (tabData header (rec0 :: rest)) = some rows ∧
      readTabular ic fc header (rec0 :: rest) =
        Except.ok (rows, tabDts ic fc header (rec0 :: rest) rec0) := by
  have hrows : ∀ r ∈ tabData header (rec0 :: rest),
      ∃ tr, convertRow ic fc (tabKM ic fc header (rec0 :: rest) rec0) r = some tr := by
    intro r hr
    apply convertRow_isSome
    intro k s hm
    have hnd : (rowKeys r).Nodup := by
      obtain ⟨rec, _, he⟩ := List.mem_map.mp hr
      rw [← he]
      exact nodup_rowKeys_dictRow header rec
    have hs : s ∈ colVals (tabData header (rec0 :: rest)) k :=
      List.mem_filterMap.mpr ⟨r, hr, dlookup_eq_some_of_mem r k s hnd hm⟩
    exact convertCell_isSome ic fc _ _ k s hs
      (fun hd => (inferKeyMap_sound _ _ _ _ k).1 hd)
      (fun hd => (inferKeyMap_sound _ _ _ _ k).2 hd)
  obtain ⟨rows, hconv⟩ := convertRows_isSome _ _ _ _ hrows
  refine ⟨rows, hconv, ?_⟩
  rw [readTabular, hconv]

/-- A datatype looked up in the returned `datatypes` dict comes from a
key of `data[0]` together with the `key_map` default. -/
theorem tabDts_lookup (ic : String → Option Int) (fc : String → Option Rat)
    (header : List String) (records : List (List String)) (rec0 : List String)
    (k : String) (dt : Datatype)
    (h : dlookup k (tabDts ic fc header records rec0) = some dt) :
    k ∈ rowKeys (dictRow header rec0) ∧
      (dlookup k (tabKM ic fc header records rec0)).getD Datatype.TEXT = dt := by
  unfold tabDts at h
  rw [dlookup_tabulate] at h
  by_cases hm : k ∈ rowKeys (dictRow header rec0)
  · rw [if_pos hm] at h
    cases h
    exact ⟨hm, rfl⟩
  · rw [if_neg hm] at h
    cases h

/-- A non-TEXT default lookup forces a genuine `key_map` entry. -/
theorem getD_text_eq (o : Option Datatype) (dt : Datatype)
    (h : o.getD Datatype.TEXT = dt) (hne : dt ≠ Datatype.TEXT) : o = some dt := by
  cases o with
  | none => exact absurd h.symm hne
  | some x => rw [Option.getD_some] at h; rw [h]

/-- The conversion of a cell in an INTEGER or REAL column is never the
raw string. -/
theorem convertCell_ne_vStr (ic : String → Option Int) (fc : String → Option Rat)
    (km : List (String × Datatype)) (k s₀ : String) (dt : Datatype)
    (hd : dlookup k km = some dt) (hne : dt ≠ Datatype.TEXT) (s : String) :
    convertCell ic fc km k s₀ ≠ some (Value.vStr s) := by
  unfold convertCell
  rw [hd]
  cases dt with
  | INTEGER => cases ic s₀ <;> simp
  | REAL => cases fc s₀ <;> simp
  | TEXT => exact absurd rfl hne

/-- A cell of a column absent from `key_map` is passed through as the
raw string. -/
theorem convertCell_of_not_mem (ic : String → Option Int) (fc : String → Option Rat)
    (km : List (String × Datatype)) (k s : String)
    (h : dlookup k km = none) :
    convertCell ic fc km k s = some (Value.vStr s) := by
  unfold convertCell
  rw [h]

/-- Characters surviving `strip` are characters of the input. -/
theorem mem_pyStrip (issp : Char → Bool) (s : String) (c : Char)
    (h : c ∈ (pyStrip issp s).data) : c ∈ s.data := by
  unfold pyStrip at h
  simp only [List.mem_reverse] at h
  have h1 := (List.dropWhile_sublist issp).mem h
  rw [List.mem_reverse] at h1
  exact (List.dropWhile_sublist issp).mem h1

/-- Characters of `string.printable` are ASCII. -/
theorem inStringPrintable_ascii (c : Char) (h : inStringPrintable c = true) :
    c.toNat ≤ 0x7f := by
  unfold inStringPrintable at h
  simp only [Bool.or_eq_true, decide_eq_true_eq, Bool.and_eq_true] at h
  rcases h with ((((((⟨_, h⟩ | h) | h) | h) | h) | h) | h)
  · omega
  · subst h; decide
  · subst h; decide
  · subst h; decide
  · omega
  · omega
  · subst h; decide

/-- C10: whenever `_read_tabular` maps a column to INTEGER
(respectively REAL), every raw value of that column converts to `int`
(respectively `float`); consequently the per-row conversion pass never
raises — the read returns normally — and the returned rows hold no raw
string in any INTEGER or REAL column. -/
theorem c10_numeric_datatype_sound (ic : String → Option Int) (fc : String → Option Rat)
    (header : List String) (rec0 : List String) (rest : List (List String))
    (hlen : ∀ r ∈ rec0 :: rest, r.length = header.length) :
    ∃ rows dts, readTabular ic fc header (rec0 :: rest) = Except.ok (rows, dts) ∧
      (∀ k, dlookup k dts = some Datatype.INTEGER →
        ∀ v ∈ colVals (tabData header (rec0 :: rest)) k, (ic v).isSome = true) ∧
      (∀ k, dlookup k dts = some Datatype.REAL →
        ∀ v ∈ colVals (tabData header (rec0 :: rest)) k, (fc v).isSome = true) ∧
      (∀ tr ∈ rows, ∀ k dt, dlookup k dts = some dt → dt ≠ Datatype.TEXT →
        ∀ s, dlookup k tr ≠ some (Value.vStr s)) := by
  obtain ⟨rows, hconv, hok⟩ := readTabular_ok ic fc header rec0 rest
  refine ⟨rows, tabDts ic fc header (rec0 :: rest) rec0, hok, ?_, ?_, ?_⟩
  · intro k hd v hv
    obtain ⟨-, hgd⟩ := tabDts_lookup ic fc header (rec0 :: rest) rec0 k _ hd
    have hkm := getD_text_eq _ _ hgd (fun h => nomatch h)
    exact List.all_eq_true.mp ((inferKeyMap_sound _ _ _ _ k).1 hkm) v hv
  · intro k hd v hv
    obtain ⟨-, hgd⟩ := tabDts_lookup ic fc header (rec0 :: rest) rec0 k _ hd
    have hkm := getD_text_eq _ _ hgd (fun h => nomatch h)
    exact List.all_eq_true.mp ((inferKeyMap_sound _ _ _ _ k).2 hkm) v hv
  · intro tr htr k dt hd hne s
    obtain ⟨-, hgd⟩ := tabDts_lookup ic fc header (rec0 :: rest) rec0 k _ hd
    have hkm := getD_text_eq _ _ hgd hne
    obtain ⟨r, -, hrc⟩ := convertRows_mem_right ic fc _ _ rows hconv tr htr
    rw [convertRow_dlookup ic fc _ r tr hrc k]
    cases hlr : dlookup k r with
    | none => simp
    | some s₀ =>
        rw [Option.some_bind]
        exact convertCell_ne_vStr ic fc _ k s₀ dt hkm hne s

/-- C10 witness: a concrete file with an INTEGER column, a REAL column
and a TEXT column (given the clobbering, the INTEGER column comes
first, so the others degrade to TEXT, keeping all conclusions
non-vacuous on the INTEGER side). -/
theorem c10_witness :
    (∀ r ∈ [["1", "2.5"], ["3", "x"]], r.length = (["a", "b"] : List String).length) ∧
    (∃ rows dts,
      readTabular pyIntConv pyFloatConv ["a", "b"] ([["1", "2.5"], ["3", "x"]]) =
        Except.ok (rows, dts) ∧
      (∀ k, dlookup k dts = some Datatype.INTEGER →
        ∀ v ∈ colVals (tabData ["a", "b"] [["1", "2.5"], ["3", "x"]]) k,
          (pyIntConv v).isSome = true) ∧
      (∀ k, dlookup k dts = some Datatype.REAL →
        ∀ v ∈ colVals (tabData ["a", "b"] [["1", "2.5"], ["3", "x"]]) k,
          (pyFloatConv v).isSome = true) ∧
      (∀ tr ∈ rows, ∀ k dt, dlookup k dts = some dt → dt ≠ Datatype.TEXT →
        ∀ s, dlookup k tr ≠ some (Value.vStr s))) :=
  ⟨by decide, c10_numeric_datatype_sound pyIntConv pyFloatConv ["a", "b"]
    ["1", "2.5"] [["3", "x"]] (by decide)⟩

/-- C3: a column holding at least one value that converts neither to
`int` nor to `float` is inferred TEXT, and in every returned row the
value of that column is the untouched raw string. -/
theorem c3_nonnumeric_column_text_and_unchanged (ic : String → Option Int)
    (fc : String → Option Rat) (header : List String) (records : List (List String))
    (k v : String)
    (hlen : ∀ r ∈ records, r.length = header.length)
    (hv : v ∈ colVals (tabData header records) k)
    (hic : ic v = none) (hfc : fc v = none) :
    ∃ rows dts, readTabular ic fc header records = Except.ok (rows, dts) ∧
      dlookup k dts = some Datatype.TEXT ∧
      List.Forall₂ (fun (raw : RawRow) (typed : TypedRow) =>
        dlookup k typed = (dlookup k raw).map Value.vStr)
        (tabData header records) rows := by
  cases records with
  | nil => simp [tabData, colVals] at hv
  | cons rec0 rest =>
      obtain ⟨rows, hconv, hok⟩ := readTabular_ok ic fc header rec0 rest
      have hkm : dlookup k (tabKM ic fc header (rec0 :: rest) rec0) = none := by
        apply inferKeyMap_not_mem _ _ _ _ k v hv
        · rw [hic]; rfl
        · rw [hfc]; rfl
      have hmem : k ∈ rowKeys (dictRow header rec0) := by
        obtain ⟨r, hr, hlr⟩ := List.mem_filterMap.mp hv
        obtain ⟨rec, hrec, he⟩ := List.mem_map.mp hr
        have hk : k ∈ rowKeys r := by
          rw [← dlookup_isSome_iff, hlr]; rfl
        rw [← he] at hk
        rw [mem_rowKeys_dictRow header rec k (hlen rec hrec)] at hk
        rw [mem_rowKeys_dictRow header rec0 k (hlen rec0 (List.mem_cons_self _ _))]
        exact hk
      refine ⟨rows, tabDts ic fc header (rec0 :: rest) rec0, hok, ?_, ?_⟩
      · unfold tabDts
        rw [dlookup_tabulate, if_pos hmem, hkm]
        rfl
      · refine (convertRows_forall2 ic fc _ _ rows hconv).imp ?_
        intro raw typed hc
        rw [convertRow_dlookup ic fc _ raw typed hc k]
        cases hlr : dlookup k raw with
        | none => rfl
        | some s₀ =>
            rw [Option.some_bind, convertCell_of_not_mem ic fc _ k s₀ hkm]
            rfl

/-- C3 witness: in the file with header `a,b` and single row `1,x`,
column `b` holds the non-numeric `x`. -/
theorem c3_witness :
    ((∀ r ∈ [["1", "x"]], r.length = (["a", "b"] : List String).length) ∧
      "x" ∈ colVals (tabData ["a", "b"] [["1", "x"]]) "b" ∧
      pyIntConv "x" = none ∧ pyFloatConv "x" = none) ∧
    (∃ rows dts,
      readTabular pyIntConv pyFloatConv ["a", "b"] [["1", "x"]] = Except.ok (rows, dts) ∧
      dlookup "b" dts = some Datatype.TEXT ∧
      List.Forall₂ (fun (raw : RawRow) (typed : TypedRow) =>
        dlookup "b" typed = (dlookup "b" raw).map Value.vStr)
        (tabData ["a", "b"] [["1", "x"]]) rows) :=
  ⟨⟨by decide, by decide, by decide, by decide⟩,
    c3_nonnumeric_column_text_and_unchanged pyIntConv pyFloatConv ["a", "b"]
      [["1", "x"]] "b" "x" (by decide) (by decide) (by decide) (by decide)⟩

/-- C1: refuted on the code — in the file with header `a,b` and the
single row `1,2`, every value of column `b` converts to `int`
(witnessed by the second conjunct), yet `b` is inferred TEXT: after
the first all-integer column the local `values` is no longer the dict,
so both conversion attempts of every later column raise and pass.
Only the first numeric column of a file can be inferred INTEGER. -/
theorem c1_all_int_column_after_numeric_column_is_text :
    readTabular pyIntConv pyFloatConv ["a", "b"] [["1", "2"]] =
      Except.ok ([[("a", Value.vInt 1), ("b", Value.vStr "2")]],
        [("a", Datatype.INTEGER), ("b", Datatype.TEXT)]) ∧
    (pyIntConv "2").isSome = true := by
  exact ⟨rfl, rfl⟩

/-- C2: refuted on the code — constructing a `Database` from a
directory ingests nothing at all: `__init__` only tests
`source_path.is_file()`, which is false for a directory, and no branch
ever iterates the directory, so a directory holding `a.csv` and
`b.csv` yields a database with zero tables. -/
theorem c2_directory_source_ingests_nothing :
    databaseInit translit0 pyIntConv pyFloatConv (Source.dir [fileA, fileB]) =
      Except.ok { store := [], tables := [] } := rfl

/-- C4: refuted on the code — `Database()` with the source argument
absent keeps `source_path = None`, and `None.is_file()` raises
`AttributeError` instead of returning an empty ready-to-query
instance. -/
theorem c4_none_source_raises_attribute_error :
    databaseInit translit0 pyIntConv pyFloatConv Source.nothing =
      Except.error PyError.attributeError := rfl

/-- C5 counterexample: a successfully parsed file with a header and
zero data rows makes `_read_tabular` raise `IndexError` at
`data[0].keys()` instead of returning normally. -/
theorem c5_header_only_raises_index_error :
    readTabular pyIntConv pyFloatConv ["a", "b"] [] =
      Except.error PyError.indexError := rfl

/-- C5 (amended): for every parsed file with at least one data row,
`_read_tabular` returns normally and every header column receives a
datatype, degrading at worst to TEXT. -/
theorem c5_at_least_one_row_returns_normally (ic : String → Option Int)
    (fc : String → Option Rat) (header : List String) (rec0 : List String)
    (rest : List (List String))
    (hlen : ∀ r ∈ rec0 :: rest, r.length = header.length) :
    ∃ rows dts, readTabular ic fc header (rec0 :: rest) = Except.ok (rows, dts) ∧
      ∀ k ∈ header, ∃ dt, dlookup k dts = some dt := by
  obtain ⟨rows, -, hok⟩ := readTabular_ok ic fc header rec0 rest
  refine ⟨rows, tabDts ic fc header (rec0 :: rest) rec0, hok, ?_⟩
  intro k hk
  have hmem : k ∈ rowKeys (dictRow header rec0) := by
    rw [mem_rowKeys_dictRow header rec0 k (hlen rec0 (List.mem_cons_self _ _))]
    exact hk
  unfold tabDts
  rw [dlookup_tabulate, if_pos hmem]
  exact ⟨_, rfl⟩

/-- C5 witness: the header-`a,b` file with one data row. -/
theorem c5_witness :
    (∀ r ∈ [["1", "x"]], r.length = (["a", "b"] : List String).length) ∧
    (∃ rows dts,
      readTabular pyIntConv pyFloatConv ["a", "b"] [["1", "x"]] = Except.ok (rows, dts) ∧
      ∀ k ∈ (["a", "b"] : List String), ∃ dt, dlookup k dts = some dt) :=
  ⟨by decide, c5_at_least_one_row_returns_normally pyIntConv pyFloatConv
    ["a", "b"] ["1", "x"] [] (by decide)⟩

/-- C6 counterexample: adding a second file whose stem transliterates
to the already-present table name `a` fails with the engine's own
`sqlite3.OperationalError`, not with any `DuplicateTableError` — the
code defines no such error and performs no duplicate check of its own
(the TODO at line 122 records this). -/
theorem c6_no_duplicate_table_error :
    addTable translit0 pyIntConv pyFloatConv dbA fileA2 =
      Except.error (PyError.operationalError "table a already exists") ∧
    isDuplicateTableError (addTable translit0 pyIntConv pyFloatConv dbA fileA2) = false :=
  ⟨rfl, rfl⟩

/-- C6 (amended): adding a table whose transliterated name equals an
existing table's fails with the underlying engine's duplicate-table
error, raised by `CREATE TABLE` before `self.tables` is assigned and
before any row is inserted — so the existing table is not overwritten
and the database state is unchanged (the call produces an error and no
new database). -/
theorem c6_duplicate_table_engine_error (t : String → String)
    (ic : String → Option Int) (fc : String → Option Rat)
    (db : Database) (f : FileData)
    (hne : f.records ≠ [])
    (hlen : ∀ r ∈ f.records, r.length = f.header.length)
    (hdup : db.store.any (fun p => p.1 = t f.stem) = true) :
    addTable t ic fc db f =
      Except.error (PyError.operationalError ("table " ++ t f.stem ++ " already exists")) := by
  obtain ⟨stem, header, records⟩ := f
  cases records with
  | nil => exact absurd rfl hne
  | cons rec0 rest =>
      obtain ⟨rows, -, hok⟩ := readTabular_ok ic fc header rec0 rest
      simp only [addTable, hok, hdup, if_true]

/-- C6 witness: the concrete duplicate ingestion into `dbA`. -/
theorem c6_witness :
    (fileA2.records ≠ [] ∧
      (∀ r ∈ fileA2.records, r.length = fileA2.header.length) ∧
      dbA.store.any (fun p => p.1 = translit0 fileA2.stem) = true) ∧
    addTable translit0 pyIntConv pyFloatConv dbA fileA2 =
      Except.error (PyError.operationalError
        ("table " ++ translit0 fileA2.stem ++ " already exists")) :=
  ⟨⟨by decide, by decide, by decide⟩,
    c6_duplicate_table_engine_error translit0 pyIntConv pyFloatConv dbA fileA2
      (by decide) (by decide) (by decide)⟩

/-- C7 counterexample: a malformed query against an existing store
fails with the engine's own error — untagged: it is no `QueryError`
(none exists in the code) and its message does not contain the query
string, so the failure carries no attached query text. -/
theorem c7_error_not_tagged_with_query :
    replQuery engineSyntaxError dbA "SELEC name FROM people" =
      Except.error (PyError.operationalError "near \"SELEC\": syntax error") ∧
    isQueryError (replQuery engineSyntaxError dbA "SELEC name FROM people") = false ∧
    strContains "SELEC name FROM people" "near \"SELEC\": syntax error" = false :=
  ⟨rfl, rfl, by decide⟩

/-- C7 (amended): whatever error the engine reports for a query is
propagated unmodified — the code adds no wrapper, no query text, and
swallows nothing; since the call produces an error, no new database
state is produced and the caller's store is untouched. -/
theorem c7_engine_error_propagated_unmodified
    (engine : List (String × Table) → String →
      Except String (List (String × Table) × List (List Value)))
    (db : Database) (q msg : String)
    (h : engine db.store q = Except.error msg) :
    replQuery engine db q = Except.error (PyError.operationalError msg) := by
  unfold replQuery
  rw [h]

/-- C7 witness: the concrete malformed query against `dbA`. -/
theorem c7_witness :
    engineSyntaxError dbA.store "SELEC name FROM people" =
      Except.error "near \"SELEC\": syntax error" ∧
    replQuery engineSyntaxError dbA "SELEC name FROM people" =
      Except.error (PyError.operationalError "near \"SELEC\": syntax error") :=
  ⟨rfl, c7_engine_error_propagated_unmodified engineSyntaxError dbA
    "SELEC name FROM people" "near \"SELEC\": syntax error" rfl⟩

/-- C8 counterexample: a header whose two column names collide is
ingested without any error — in particular without the spec's
`DuplicateColumnError`, which the code does not define — and the
duplicate is silently merged into one column holding the last
occurrence's value (`2`, not `1`). -/
theorem c8_duplicate_header_merges_silently :
    readTabular pyIntConv pyFloatConv ["a", "a"] [["1", "2"]] =
      Except.ok ([[("a", Value.vInt 2)]], [("a", Datatype.INTEGER)]) := rfl

/-- C8 (amended): a column name occurring twice in the header yields a
schema in which that name appears exactly once (the row dicts collapse
duplicate keys, keeping the last value), and the read succeeds with no
error. -/
theorem c8_duplicate_header_collapses_to_one_column (ic : String → Option Int)
    (fc : String → Option Rat) (header : List String) (rec0 : List String)
    (rest : List (List String)) (k : String)
    (hlen : ∀ r ∈ rec0 :: rest, r.length = header.length)
    (hdup : 2 ≤ header.count k) :
    ∃ rows dts, readTabular ic fc header (rec0 :: rest) = Except.ok (rows, dts) ∧
      (dts.map Prod.fst).count k = 1 := by
  obtain ⟨rows, -, hok⟩ := readTabular_ok ic fc header rec0 rest
  refine ⟨rows, tabDts ic fc header (rec0 :: rest) rec0, hok, ?_⟩
  have hfst : (tabDts ic fc header (rec0 :: rest) rec0).map Prod.fst =
      rowKeys (dictRow header rec0) := by
    unfold tabDts
    rw [List.map_map]
    exact List.map_id _
  rw [hfst]
  have hmem : k ∈ rowKeys (dictRow header rec0) := by
    rw [mem_rowKeys_dictRow header rec0 k (hlen rec0 (List.mem_cons_self _ _))]
    exact List.count_pos_iff.mp (by omega)
  have hnd := nodup_rowKeys_dictRow header rec0
  have hle := List.nodup_iff_count_le_one.mp hnd k
  have hge := List.count_pos_iff.mpr hmem
  omega

/-- C8 witness: the concrete header `a,a` with one record. -/
theorem c8_witness :
    ((∀ r ∈ [["1", "2"]], r.length = (["a", "a"] : List String).length) ∧
      2 ≤ (["a", "a"] : List String).count "a") ∧
    (∃ rows dts,
      readTabular pyIntConv pyFloatConv ["a", "a"] [["1", "2"]] = Except.ok (rows, dts) ∧
      (dts.map Prod.fst).count "a" = 1) :=
  ⟨⟨by decide, by decide⟩,
    c8_duplicate_header_collapses_to_one_column pyIntConv pyFloatConv
      ["a", "a"] ["1", "2"] [] "a" (by decide) (by decide)⟩

/-- C9 counterexample: the last-resort fallback inside `database.py`
is not ASCII-safe — it keeps every alphabetic character, so the CJK
stem `北` (alphabetic, no NFKD decomposition) passes through unchanged
and the output contains a non-ASCII character. -/
theorem c9_fallback_emits_non_ascii :
    unicode2asciiFallback cjkOracle "北" = "北" ∧ allASCII "北" = false := by
  exact ⟨rfl, rfl⟩

/-- C9 (amended): the module implementation of `unicode2ascii` is
ASCII-safe — provided every replacement string of the substituted
`UNICODE_MAP` is ASCII (the build script produces them with unidecode,
which emits ASCII only), its output consists only of ASCII characters,
for every input and every whitespace class used by `strip`.  Totality
and determinism are inherent: the embedding is a total function. -/
theorem c9_module_transliteration_ascii (umap : Char → Option String)
    (issp : Char → Bool)
    (hmap : ∀ c r, umap c = some r → allASCII r = true) (text : String) :
    allASCII (unicode2asciiModule umap issp text) = true := by
  unfold allASCII
  rw [List.all_eq_true]
  intro c hc
  have hc1 : c ∈ ((text.data.map (fun c =>
      if inStringPrintable c then [c] else ((umap c).getD "").data)).flatten) := by
    exact mem_pyStrip issp _ c hc
  obtain ⟨l, hl, hcl⟩ := List.mem_flatten.mp hc1
  obtain ⟨ch, -, he⟩ := List.mem_map.mp hl
  by_cases hp : inStringPrintable ch = true
  · rw [if_pos hp] at he
    rw [← he] at hcl
    have hceq : c = ch := List.mem_singleton.mp hcl
    rw [hceq]
    simpa using inStringPrintable_ascii ch hp
  · rw [if_neg hp] at he
    cases hu : umap ch with
    | none =>
        rw [hu] at he
        rw [← he] at hcl
        cases hcl
    | some r =>
        rw [hu] at he
        rw [← he] at hcl
        have := List.all_eq_true.mp (hmap ch r hu) c hcl
        simpa using this

/-- C9 witness: a two-entry replacement map whose values are ASCII,
applied to a stem holding a mapped accented letter, printable
characters and surrounding whitespace. -/
theorem c9_witness :
    (∀ c r, umap0 c = some r → allASCII r = true) ∧
    allASCII (unicode2asciiModule umap0 pyWs " áb c ") = true := by
  have hm : ∀ c r, umap0 c = some r → allASCII r = true := by
    intro c r h
    unfold umap0 at h
    by_cases h1 : c = 'á'
    · rw [if_pos h1] at h
      cases h
      rfl
    · rw [if_neg h1] at h
      by_cases h2 : c = 'ž'
      · rw [if_pos h2] at h
        cases h
        rfl
      · rw [if_neg h2] at h
        cases h
  exact ⟨hm, c9_module_transliteration_ascii umap0 pyWs hm " áb c "⟩

end SinglePy
